import Mathlib

/-!
Verification of the git_subscribe registry core (src/main.rs) against its
specification.  The program is shallowly embedded: filesystem paths are
modelled by their component lists (the view Rust's Path component API
exposes), SystemTime by seconds/nanoseconds since the Unix epoch, the
TOML serialization layer by a structured value tree, and the store file
by an explicit file-state value.  Process-aborting panics are modelled
as explicit error/crash results.
-/

namespace GitSubscribe

/-- A filesystem path, modelled as its list of components
(the view Rust's Path/PathBuf component API exposes). -/
abbrev FsPath := List String

/-- Rendering of a path for user-facing messages
(PathBuf.to_string_lossy, for paths with valid components). -/
def renderPath (p : FsPath) : String :=
  String.intercalate "/" p

/-- SystemTime, as in src/main.rs field last_fetch: a point in time at or
after the Unix epoch, as serialized by serde (secs_since_epoch,
nanos_since_epoch). -/
structure SysTime where
  secs : Nat
  nanos : Nat
deriving DecidableEq

/-- std::time::UNIX_EPOCH. -/
def UNIX_EPOCH : SysTime := ⟨0, 0⟩

/-- Total nanoseconds since the epoch, used to compare instants. -/
def SysTime.toNanos (t : SysTime) : Nat :=
  t.secs * 1000000000 + t.nanos

/-- SystemTime::elapsed at current time now: Ok duration when the stored
instant is not in the future, Err otherwise (modelled as none). -/
def elapsedSince (now t : SysTime) : Option Nat :=
  if t.toNanos ≤ now.toNanos then some (now.toNanos - t.toNanos) else none

/-- struct TrackedRepo (src/main.rs lines 38-42). -/
structure TrackedRepo where
  path : FsPath
  last_fetch : SysTime
deriving DecidableEq

/-- struct ApplicationData (src/main.rs lines 44-47). -/
structure ApplicationData where
  tracked_repos : List TrackedRepo
deriving DecidableEq

/-- Rust Path::ends_with: tests whether the given child path is a suffix
of this path, comparing whole components (not a textual suffix of the
final component). -/
def pathEndsWith (p child : FsPath) : Bool :=
  List.isSuffixOf child p

/-- Rust PathBuf::pop: removes the final component. -/
def popPath (p : FsPath) : FsPath :=
  p.dropLast

/-- Rust PathBuf::set_file_name: replaces the final component with the
given name when one exists, otherwise appends it. -/
def setFileName (p : FsPath) (name : String) : FsPath :=
  match p with
  | [] => [name]
  | _ :: _ => p.dropLast ++ [name]

/-- The store-file path computed by the DATA_FILE_PATH lazy_static
(src/main.rs lines 9-18): take the per-project local data directory and
apply set_file_name with the literal name data.toml. -/
def DATA_FILE_PATH (dataLocalDir : FsPath) : FsPath :=
  setFileName dataLocalDir "data.toml"

/-- The path-normalization step of command_add (src/main.rs lines 85-89):
starting from the repository's metadata-directory location (repo.path),
pop the final component exactly when the path ends with the component
.git. -/
def stripGitSuffix (p : FsPath) : FsPath :=
  if pathEndsWith p [".git"] then popPath p else p

/-- command_add (src/main.rs lines 70-99), after the repository at the
target location has been opened successfully; repoMetaPath is the
resolved repository's metadata-directory location (repo.path()).  A new
TrackedRepo with last_fetch = UNIX_EPOCH is pushed onto the registry. -/
def command_add (repoMetaPath : FsPath) (data : ApplicationData) : ApplicationData :=
  { tracked_repos :=
      data.tracked_repos ++ [{ path := stripGitSuffix repoMetaPath, last_fetch := UNIX_EPOCH }] }

theorem isSuffixOf_singleton_iff_getLast (p : FsPath) (s : String) :
    pathEndsWith p [s] = true ↔ p.getLast? = some s := by
  unfold pathEndsWith
  rw [List.isSuffixOf_iff_suffix]
  constructor
  · rintro ⟨t, rfl⟩
    simp [List.getLast?_append]
  · intro h
    rcases p.eq_nil_or_concat with rfl | ⟨t, a, rfl⟩
    · simp at h
    · simp [List.getLast?_append] at h
      exact ⟨t, by simp [h]⟩

theorem stripGitSuffix_eq (p : FsPath) :
    stripGitSuffix p = if p.getLast? = some ".git" then p.dropLast else p := by
  unfold stripGitSuffix popPath
  by_cases h : p.getLast? = some ".git"
  · rw [if_pos ((isSuffixOf_singleton_iff_getLast p ".git").mpr h), if_pos h]
  · rw [if_neg (fun hb => h ((isSuffixOf_singleton_iff_getLast p ".git").mp hb)), if_neg h]

/-- C2: a successful add appends exactly one entry at the end of the
registry: its path is the resolved metadata-directory location with a
trailing .git component stripped, its last_fetch is the Unix epoch, and
all pre-existing entries are unchanged in value and order. -/
theorem add_appends_single_stripped_entry (repoMetaPath : FsPath) (data : ApplicationData) :
    (command_add repoMetaPath data).tracked_repos =
      data.tracked_repos ++
        [{ path := if repoMetaPath.getLast? = some ".git"
                   then repoMetaPath.dropLast else repoMetaPath,
           last_fetch := ⟨0, 0⟩ }] := by
  unfold command_add
  rw [stripGitSuffix_eq]
  rfl

/-- C7: add performs no duplicate check: adding the same resolved
repository twice in succession yields a registry extended by two entries
with the same stored path. -/
theorem add_twice_duplicates (repoMetaPath : FsPath) (data : ApplicationData) :
    ∃ e₁ e₂ : TrackedRepo,
      (command_add repoMetaPath (command_add repoMetaPath data)).tracked_repos =
          data.tracked_repos ++ [e₁, e₂] ∧ e₁.path = e₂.path := by
  refine ⟨⟨stripGitSuffix repoMetaPath, UNIX_EPOCH⟩,
          ⟨stripGitSuffix repoMetaPath, UNIX_EPOCH⟩, ?_, rfl⟩
  simp [command_add]

/-- C9: the metadata-directory stripping removes the final component only
when that component is exactly .git; a path whose final component merely
has the textual suffix .git, such as a bare repository directory named
project.git, is stored unmodified. -/
theorem strip_only_exact_git_component :
    (∀ p : FsPath, stripGitSuffix p =
        if p.getLast? = some ".git" then p.dropLast else p) ∧
      stripGitSuffix ["srv", "project.git"] = ["srv", "project.git"] := by
  refine ⟨stripGitSuffix_eq, ?_⟩
  rw [stripGitSuffix_eq]
  decide

/-- C8, as the code behaves: set_file_name replaces the final component
of the per-project data directory, so the computed store-file path is a
sibling of that directory (its parent joined with data.toml), not a file
inside it. -/
theorem data_file_path_is_sibling_of_app_dir :
    DATA_FILE_PATH [".local", "share", "git_subscribe"] =
        [".local", "share", "data.toml"] ∧
      (DATA_FILE_PATH [".local", "share", "git_subscribe"]).take 3 ≠
        [".local", "share", "git_subscribe"] ∧
      ∀ d : FsPath, d ≠ [] → DATA_FILE_PATH d = d.dropLast ++ ["data.toml"] := by
  refine ⟨by decide, by decide, ?_⟩
  intro d hd
  unfold DATA_FILE_PATH setFileName
  cases d with
  | nil => exact absurd rfl hd
  | cons a t => rfl

/-- C8 witness: the general clause evaluated at a concrete directory. -/
theorem data_file_path_is_sibling_of_app_dir_witness :
    ([".local", "share", "git_subscribe"] : FsPath) ≠ [] ∧
      DATA_FILE_PATH [".local", "share", "git_subscribe"] =
        ([".local", "share", "git_subscribe"] : FsPath).dropLast ++ ["data.toml"] :=
  ⟨by decide,
   data_file_path_is_sibling_of_app_dir.2.2 [".local", "share", "git_subscribe"] (by decide)⟩

/-- One line of output produced by command_list: the dbg print of the
store-file path during load, the Debug dump of the whole deserialized
registry, the blank line, and one formatted per-entry line carrying the
path and the elapsed duration in nanoseconds. -/
inductive OutputEvent where
  | debugPath (p : FsPath)
  | debugDump (d : ApplicationData)
  | blankLine
  | entryLine (path : FsPath) (elapsedNanos : Nat)
deriving DecidableEq

/-- The per-entry loop of command_list (src/main.rs lines 63-67): each
entry prints a line from its path and elapsed time; on the first entry
whose last_fetch lies in the future, elapsed() returns Err and unwrap
panics, aborting the process (crashed flag, no further output). -/
def listEntries (now : SysTime) : List TrackedRepo → List OutputEvent × Bool
  | [] => ([], false)
  | r :: rs =>
    match elapsedSince now r.last_fetch with
    | none => ([], true)
    | some e =>
      let rest := listEntries now rs
      (OutputEvent.entryLine r.path e :: rest.1, rest.2)

/-- The output of one run of command_list (src/main.rs lines 59-68), with
the registry already loaded: the dbg print of the store-file path (emitted
inside load_app_data), the Debug dump of the registry, a blank line, then
the per-entry lines; crashed is true when the run panics on a future
last_fetch. -/
structure ListRun where
  output : List OutputEvent
  crashed : Bool
deriving DecidableEq

def command_list (now : SysTime) (storePath : FsPath) (data : ApplicationData) : ListRun :=
  let rest := listEntries now data.tracked_repos
  { output := OutputEvent.debugPath storePath ::
        OutputEvent.debugDump data :: OutputEvent.blankLine :: rest.1,
    crashed := rest.2 }

/-- C1 counterexample: with one tracked entry whose last_fetch (1 s after
the epoch) lies in the future of the current time (the epoch itself),
command_list crashes instead of clamping or reporting. -/
theorem list_crashes_on_future_timestamp_cex :
    (command_list ⟨0, 0⟩ ["store"]
        ⟨[{ path := ["repo"], last_fetch := ⟨1, 0⟩ }]⟩).crashed = true := by
  decide

/-- C1, amended: whenever some entry's last_fetch lies strictly in the
future of the current time and all earlier entries do not, command_list
panics (the elapsed-time Err is unwrapped), crashing the process; the
invalid computation is neither clamped to zero nor reported as an
error. -/
theorem list_crashes_on_future_timestamp (now : SysTime) (storePath : FsPath)
    (data : ApplicationData) (l₁ : List TrackedRepo) (r : TrackedRepo)
    (l₂ : List TrackedRepo) (hsplit : data.tracked_repos = l₁ ++ r :: l₂)
    (hbefore : ∀ x ∈ l₁, x.last_fetch.toNanos ≤ now.toNanos)
    (hfut : now.toNanos < r.last_fetch.toNanos) :
    (command_list now storePath data).crashed = true := by
  have key : ∀ l : List TrackedRepo, (∀ x ∈ l, x.last_fetch.toNanos ≤ now.toNanos) →
      (listEntries now (l ++ r :: l₂)).2 = true := by
    intro l
    induction l with
    | nil =>
      intro _
      have hlt : ¬ r.last_fetch.toNanos ≤ now.toNanos := not_le.mpr hfut
      simp [listEntries, elapsedSince, hlt]
    | cons a t ih =>
      intro hall
      have ha : a.last_fetch.toNanos ≤ now.toNanos := hall a (by simp)
      have ht : ∀ x ∈ t, x.last_fetch.toNanos ≤ now.toNanos :=
        fun x hx => hall x (by simp [hx])
      simp [listEntries, elapsedSince, ha, ih ht]
  unfold command_list
  rw [hsplit]
  exact key l₁ hbefore

/-- C1 witness: the amended theorem applied at a concrete registry with
one in-time entry followed by one future entry. -/
theorem list_crashes_on_future_timestamp_witness :
    (command_list ⟨5, 0⟩ ["store"]
        ⟨[{ path := ["a"], last_fetch := ⟨0, 0⟩ },
          { path := ["b"], last_fetch := ⟨9, 0⟩ }]⟩).crashed = true :=
  list_crashes_on_future_timestamp ⟨5, 0⟩ ["store"]
    ⟨[{ path := ["a"], last_fetch := ⟨0, 0⟩ },
      { path := ["b"], last_fetch := ⟨9, 0⟩ }]⟩
    [{ path := ["a"], last_fetch := ⟨0, 0⟩ }]
    { path := ["b"], last_fetch := ⟨9, 0⟩ } [] rfl (by decide) (by decide)

/-- C10: on every invocation, the output of command_list opens with the
store-file path dbg print, the raw Debug dump of the entire deserialized
registry and a blank line, and only then the per-entry lines. -/
theorem list_prints_debug_header_first (now : SysTime) (storePath : FsPath)
    (data : ApplicationData) :
    ∃ rest : List OutputEvent,
      (command_list now storePath data).output =
          [OutputEvent.debugPath storePath, OutputEvent.debugDump data,
            OutputEvent.blankLine] ++ rest ∧
        ∀ e ∈ rest, ∃ p n, e = OutputEvent.entryLine p n := by
  refine ⟨(listEntries now data.tracked_repos).1, rfl, ?_⟩
  induction data.tracked_repos with
  | nil =>
    intro e he
    simp [listEntries] at he
  | cons a t ih =>
    intro e he
    by_cases h : a.last_fetch.toNanos ≤ now.toNanos
    · simp [listEntries, elapsedSince, h] at he
      rcases he with rfl | he
      · exact ⟨a.path, now.toNanos - a.last_fetch.toNanos, rfl⟩
      · exact ih e he
    · simp [listEntries, elapsedSince, h] at he

/-- The predicate command_remove applies to each entry (src/main.rs line
113): same_file::is_same_file asks the OS whether the two paths denote
the same physical file-system object (some true / some false), or fails
to stat one of them (none); unwrap_or(false) turns both a negative
answer and a stat failure into a non-match. -/
def sameFileCheck (sameFile : FsPath → FsPath → Option Bool)
    (target p : FsPath) : Bool :=
  (sameFile target p).getD false

/-- The enumerate().find of command_remove (src/main.rs lines 109-113):
the first index (and entry) satisfying the predicate. -/
def findMatch (pred : TrackedRepo → Bool) :
    Nat → List TrackedRepo → Option (Nat × TrackedRepo)
  | _, [] => none
  | i, r :: rs => if pred r then some (i, r) else findMatch pred (i + 1) rs

/-- The outcome of command_remove: the registry value subsequently passed
to write_app_data, and the informational message printed when no entry
matched. -/
structure RemoveOutcome where
  newData : ApplicationData
  message : Option String
deriving DecidableEq

/-- command_remove (src/main.rs lines 101-126), with the registry already
loaded and the target path already defaulted to the given path or the
current working directory: find the first entry whose stored path is the
same physical object as the target; remove it if found, otherwise print
an informational message; in both cases pass the (possibly unchanged)
registry to write_app_data. -/
def command_remove (sameFile : FsPath → FsPath → Option Bool)
    (target : FsPath) (data : ApplicationData) : RemoveOutcome :=
  match findMatch (fun r => sameFileCheck sameFile target r.path) 0 data.tracked_repos with
  | some (i, _) => { newData := ⟨data.tracked_repos.eraseIdx i⟩, message := none }
  | none =>
    { newData := data,
      message := some ("there were no tracked repositories at " ++ renderPath target) }

theorem findMatch_append (pred : TrackedRepo → Bool) (r : TrackedRepo)
    (l₂ : List TrackedRepo) (hr : pred r = true) :
    ∀ (l₁ : List TrackedRepo) (i : Nat), (∀ x ∈ l₁, pred x = false) →
      findMatch pred i (l₁ ++ r :: l₂) = some (i + l₁.length, r) := by
  intro l₁
  induction l₁ with
  | nil =>
    intro i _
    simp [findMatch, hr]
  | cons a t ih =>
    intro i hall
    have ha : pred a = false := hall a (by simp)
    have ht : ∀ x ∈ t, pred x = false := fun x hx => hall x (by simp [hx])
    have hstep : findMatch pred i ((a :: t) ++ r :: l₂) =
        findMatch pred (i + 1) (t ++ r :: l₂) := by
      simp [findMatch, ha]
    rw [hstep, ih (i + 1) ht, List.length_cons]
    congr 2
    omega

theorem eraseIdx_at_append_length (r : TrackedRepo) (l₂ : List TrackedRepo) :
    ∀ l₁ : List TrackedRepo, (l₁ ++ r :: l₂).eraseIdx l₁.length = l₁ ++ l₂ := by
  intro l₁
  induction l₁ with
  | nil => rfl
  | cons a t ih => simp [List.eraseIdx, ih]

theorem findMatch_none (pred : TrackedRepo → Bool) :
    ∀ (l : List TrackedRepo) (i : Nat), (∀ x ∈ l, pred x = false) →
      findMatch pred i l = none := by
  intro l
  induction l with
  | nil => intro i _; rfl
  | cons a t ih =>
    intro i hall
    have ha : pred a = false := hall a (by simp)
    have ht : ∀ x ∈ t, pred x = false := fun x hx => hall x (by simp [hx])
    simp [findMatch, ha, ih (i + 1) ht]

/-- C3: remove deletes exactly the first entry (in registry order) whose
stored path denotes the same physical object as the target, where a stat
failure counts as a non-match; every other entry keeps its value and
relative order.  The physical-identity test is the OS-provided sameFile
oracle, which answers none on a stat failure. -/
theorem remove_deletes_first_physical_match
    (sameFile : FsPath → FsPath → Option Bool) (target : FsPath)
    (data : ApplicationData) (l₁ : List TrackedRepo) (r : TrackedRepo)
    (l₂ : List TrackedRepo) (hsplit : data.tracked_repos = l₁ ++ r :: l₂)
    (hbefore : ∀ x ∈ l₁, sameFileCheck sameFile target x.path = false)
    (hr : sameFileCheck sameFile target r.path = true) :
    (command_remove sameFile target data).newData.tracked_repos = l₁ ++ l₂ ∧
      (command_remove sameFile target data).message = none := by
  unfold command_remove
  rw [hsplit, findMatch_append (fun x => sameFileCheck sameFile target x.path) r l₂ hr l₁ 0
    hbefore]
  refine ⟨?_, rfl⟩
  show List.eraseIdx (l₁ ++ r :: l₂) (0 + l₁.length) = l₁ ++ l₂
  rw [Nat.zero_add]
  exact eraseIdx_at_append_length r l₂ l₁

/-- C3 witness: a registry of three entries where the second is the first
physical match (the oracle also fails to stat the third entry's path);
exactly the second entry is removed. -/
theorem remove_deletes_first_physical_match_witness :
    (command_remove
        (fun _ p => if p = ["b"] then some true else if p = ["a"] then some false else none)
        ["t"]
        ⟨[{ path := ["a"], last_fetch := ⟨0, 0⟩ },
          { path := ["b"], last_fetch := ⟨1, 0⟩ },
          { path := ["c"], last_fetch := ⟨2, 0⟩ }]⟩).newData.tracked_repos =
      [{ path := ["a"], last_fetch := ⟨0, 0⟩ },
        { path := ["c"], last_fetch := ⟨2, 0⟩ }] :=
  (remove_deletes_first_physical_match
    (fun _ p => if p = ["b"] then some true else if p = ["a"] then some false else none)
    ["t"]
    ⟨[{ path := ["a"], last_fetch := ⟨0, 0⟩ },
      { path := ["b"], last_fetch := ⟨1, 0⟩ },
      { path := ["c"], last_fetch := ⟨2, 0⟩ }]⟩
    [{ path := ["a"], last_fetch := ⟨0, 0⟩ }]
    { path := ["b"], last_fetch := ⟨1, 0⟩ }
    [{ path := ["c"], last_fetch := ⟨2, 0⟩ }]
    rfl (by decide) (by decide)).1

/-- C4: when no tracked entry matches the target by physical identity,
command_remove reports the informational no-tracked-repository message,
leaves the registry value unchanged, and still passes the unchanged
registry on to be re-saved. -/
theorem remove_miss_reports_and_keeps_registry
    (sameFile : FsPath → FsPath → Option Bool) (target : FsPath)
    (data : ApplicationData)
    (hmiss : ∀ x ∈ data.tracked_repos, sameFileCheck sameFile target x.path = false) :
    (command_remove sameFile target data).newData = data ∧
      (command_remove sameFile target data).message =
        some ("there were no tracked repositories at " ++ renderPath target) := by
  unfold command_remove
  rw [findMatch_none (fun x => sameFileCheck sameFile target x.path) data.tracked_repos 0 hmiss]
  exact ⟨rfl, rfl⟩

/-- C4 witness: a miss where one stored path answers false and the other
cannot be stat'ed at all; the registry is returned unchanged together
with the informational message. -/
theorem remove_miss_reports_and_keeps_registry_witness :
    (command_remove (fun _ p => if p = ["a"] then some false else none) ["x", "y"]
        ⟨[{ path := ["a"], last_fetch := ⟨0, 0⟩ },
          { path := ["b"], last_fetch := ⟨1, 0⟩ }]⟩).newData =
        ⟨[{ path := ["a"], last_fetch := ⟨0, 0⟩ },
          { path := ["b"], last_fetch := ⟨1, 0⟩ }]⟩ ∧
      (command_remove (fun _ p => if p = ["a"] then some false else none) ["x", "y"]
        ⟨[{ path := ["a"], last_fetch := ⟨0, 0⟩ },
          { path := ["b"], last_fetch := ⟨1, 0⟩ }]⟩).message =
        some ("there were no tracked repositories at " ++ renderPath ["x", "y"]) :=
  remove_miss_reports_and_keeps_registry
    (fun _ p => if p = ["a"] then some false else none) ["x", "y"]
    ⟨[{ path := ["a"], last_fetch := ⟨0, 0⟩ },
      { path := ["b"], last_fetch := ⟨1, 0⟩ }]⟩ (by decide)

/-- The structured value tree of the TOML serialization layer (the serde
data model the derived Serialize/Deserialize impls of TrackedRepo and
ApplicationData map to).  A TOML string holding the text of a filesystem
path is represented by the path value it denotes, since the external
toml library round-trips path text losslessly. -/
inductive TomlValue where
  | pathText (p : FsPath)
  | natVal (n : Nat)
  | table (fields : List (String × TomlValue))
  | arr (items : List TomlValue)

/-- serde serialization of SystemTime: a table of the seconds and
nanoseconds since the epoch. -/
def encodeTime (t : SysTime) : TomlValue :=
  .table [("secs_since_epoch", .natVal t.secs), ("nanos_since_epoch", .natVal t.nanos)]

/-- Derived Serialize for TrackedRepo: fields path and last_fetch. -/
def encodeRepo (r : TrackedRepo) : TomlValue :=
  .table [("path", .pathText r.path), ("last_fetch", encodeTime r.last_fetch)]

/-- Derived Serialize for ApplicationData: the field tracked_repos holding
the ordered list of entries. -/
def encodeData (d : ApplicationData) : TomlValue :=
  .table [("tracked_repos", .arr (d.tracked_repos.map encodeRepo))]

/-- Derived Deserialize for SystemTime: none models a schema mismatch. -/
def decodeTime : TomlValue → Option SysTime
  | .table [("secs_since_epoch", .natVal s), ("nanos_since_epoch", .natVal n)] =>
    some ⟨s, n⟩
  | _ => none

/-- Derived Deserialize for TrackedRepo. -/
def decodeRepo : TomlValue → Option TrackedRepo
  | .table [("path", .pathText p), ("last_fetch", t)] =>
    (decodeTime t).map fun lf => { path := p, last_fetch := lf }
  | _ => none

def decodeRepoList : List TomlValue → Option (List TrackedRepo)
  | [] => some []
  | v :: vs =>
    match decodeRepo v, decodeRepoList vs with
    | some r, some rs => some (r :: rs)
    | _, _ => none

/-- Derived Deserialize for ApplicationData (toml::from_slice target). -/
def decodeData : TomlValue → Option ApplicationData
  | .table [("tracked_repos", .arr vs)] =>
    (decodeRepoList vs).map fun rs => { tracked_repos := rs }
  | _ => none

/-- The state of the store file as load_app_data can observe it through
OpenOptions.read(true).write(false).open: absent (ErrorKind NotFound),
permission denied, some other open error, or present with parsed
content.  Unparsable content is a present value that decodeData
rejects. -/
inductive FileState where
  | absent
  | permissionDenied
  | otherOpenError
  | present (content : TomlValue)

/-- The fatal outcomes of load_app_data (src/main.rs lines 128-159): the
panic on ErrorKind PermissionDenied, the panic on any other open error,
and the panic when toml::from_slice rejects the file contents. -/
inductive LoadError where
  | permissionError
  | otherError
  | formatError
deriving DecidableEq

/-- load_app_data (src/main.rs lines 128-159): an absent file yields the
empty registry; a permission-denied or other open failure panics; present
content is parsed, panicking when it does not fit the schema. -/
def load_app_data : FileState → Except LoadError ApplicationData
  | .absent => .ok { tracked_repos := [] }
  | .permissionDenied => .error .permissionError
  | .otherOpenError => .error .otherError
  | .present v =>
    match decodeData v with
    | some d => .ok d
    | none => .error .formatError

/-- load_app_data together with the store file it leaves behind: the open
options request read access only (no create flag), so the file state is
returned unchanged. -/
def load_app_data_fs (fs : FileState) : FileState × Except LoadError ApplicationData :=
  (fs, load_app_data fs)

/-- write_app_data (src/main.rs lines 161-180): the store file is opened
with create and truncate and receives the full serialization of the
registry, replacing whatever state it had. -/
def write_app_data (d : ApplicationData) (_fs : FileState) : FileState :=
  .present (encodeData d)

theorem decodeRepo_encodeRepo (r : TrackedRepo) :
    decodeRepo (encodeRepo r) = some r := by
  cases r with
  | mk p lf => cases lf with
    | mk s n => rfl

theorem decodeRepoList_map_encodeRepo (rs : List TrackedRepo) :
    decodeRepoList (rs.map encodeRepo) = some rs := by
  induction rs with
  | nil => rfl
  | cons r t ih =>
    simp only [List.map_cons, decodeRepoList, decodeRepo_encodeRepo r, ih]

/-- C6: save followed by load is the identity on registry values: loading
the store file that write_app_data produced yields the same entries with
the same path and last_fetch values, in the same order, whatever state
the store file had before. -/
theorem save_then_load_roundtrip (d : ApplicationData) (fs : FileState) :
    load_app_data (write_app_data d fs) = .ok d := by
  show load_app_data (.present (encodeData d)) = .ok d
  cases d with
  | mk rs =>
    simp only [load_app_data, encodeData, decodeData, decodeRepoList_map_encodeRepo rs]
    rfl

/-- C5: load_app_data returns the empty registry when the store file is
absent and leaves the file state untouched (no store file is created);
it fails fatally when permission is denied; and it fails fatally with a
format error whenever the file is present but its contents do not decode
into the expected schema. -/
theorem load_handles_absent_permission_and_format :
    load_app_data_fs .absent = (.absent, .ok { tracked_repos := [] }) ∧
      (load_app_data_fs .permissionDenied).2 = .error .permissionError ∧
      (∀ v : TomlValue, decodeData v = none →
        (load_app_data_fs (.present v)).2 = .error .formatError) ∧
      ∀ fs : FileState, (load_app_data_fs fs).1 = fs := by
  refine ⟨rfl, rfl, ?_, fun fs => rfl⟩
  intro v hv
  show load_app_data (.present v) = .error .formatError
  simp only [load_app_data, hv]

/-- C5 witness: the format-error clause applied to a concrete file whose
content is a bare number, which the schema rejects. -/
theorem load_handles_absent_permission_and_format_witness :
    (load_app_data_fs (.present (.natVal 0))).2 = .error .formatError :=
  load_handles_absent_permission_and_format.2.2.1 (.natVal 0) rfl

end GitSubscribe
